import Mathlib

/-
Verification of the m2arm code scanner (src/cli/internal/scanner/scanner.go,
driven by src/cli/cmd/scan.go) against its natural-language specification.

Embedding conventions:
* Go strings are modeled as `List Char` (`GoStr`); Go string helpers
  (strings.TrimSpace, strings.Split, strings.Contains, strings.Fields,
  strings.HasPrefix) are embedded over that type, restricted to their
  behavior on the ASCII inputs the scanner handles.
* The file tree is modeled as a list of (relative path, file) pairs in
  filepath.Walk (lexical) order, plus a flag telling whether the root
  exists.  A file records whether os.Open succeeds, the lines that
  bufio.Scanner delivers, and whether scanner.Err() is non-nil afterwards.
* Go's `map` iteration order is unspecified; the two ranged-over maps
  (Scanner.patterns and scanBuildSystems' buildPatterns) are therefore
  modeled by passing the iteration order as an explicit list parameter,
  quantified over permutations of the canonical key set.
* Functions returning (value, error) pairs where both components can be
  non-nil at once (scanFile, the per-ecosystem dependency scanners) are
  embedded as pairs with a Bool error flag; Scan itself, which always
  returns nil results alongside a non-nil error, is embedded as Except.
* time.Now() is modeled as an explicit `now : Nat` parameter.
-/

namespace M2arm

/-- Go strings, modeled as lists of characters. -/
abbrev GoStr := List Char

/-- Literal Go string. -/
def gs (s : String) : GoStr := s.data

/-- The ASCII part of unicode.IsSpace, used by strings.TrimSpace. -/
def isGoSpace (c : Char) : Bool :=
  c == ' ' || c == '\t' || c == '\n' || c == '\x0b' || c == '\x0c' || c == '\r'

/-- strings.TrimSpace. -/
def trimSpace (l : GoStr) : GoStr :=
  ((l.dropWhile isGoSpace).reverse.dropWhile isGoSpace).reverse

/-- strings.Contains for a two-character separator (the only separators the
scanner uses are "==" and ">="): true iff the characters c1, c2 occur
adjacently in the list. -/
def contains2 (c1 c2 : Char) : GoStr → Bool
  | [] => false
  | [_] => false
  | a :: b :: rest => (a == c1 && b == c2) || contains2 c1 c2 (b :: rest)

/-- strings.Split for a two-character separator: splits around each
non-overlapping leftmost occurrence of c1, c2. -/
def split2 (c1 c2 : Char) : GoStr → List GoStr
  | [] => [[]]
  | [c] => [[c]]
  | a :: b :: rest =>
    if a == c1 && b == c2 then
      [] :: split2 c1 c2 rest
    else
      match split2 c1 c2 (b :: rest) with
      | [] => [[a]]
      | s :: ss => (a :: s) :: ss

/-- Helper for strings.Fields: first argument accumulates the current word
in reverse. -/
def fieldsAux : GoStr → GoStr → List GoStr
  | cur, [] => if cur.isEmpty then [] else [cur.reverse]
  | cur, c :: rest =>
    if isGoSpace c then
      if cur.isEmpty then fieldsAux [] rest
      else cur.reverse :: fieldsAux [] rest
    else fieldsAux (c :: cur) rest

/-- strings.Fields: whitespace-separated words, no empties. -/
def fieldsGo (l : GoStr) : List GoStr := fieldsAux [] l

/-
Regular expressions.  All seventeen pattern strings in Scanner.patterns use
only literals, the classes \s \w \d and `.`, the quantifiers * and +, and
escaped literals; they are embedded into this small regex type.  All
seventeen compile successfully under regexp.Compile, so the source's
"skip invalid regex" branch (scanner.go:183-185) is dead for this table.
-/

/-- Regex syntax sufficient for the scanner's pattern table. -/
inductive RE where
  | eps : RE
  | cls : (Char → Bool) → RE
  | seq : RE → RE → RE
  | star : RE → RE

/-- Go regexp `.` (any character but newline). -/
def reAny (c : Char) : Bool := c != '\n'

/-- Go regexp \s = [\t\n\f\r ]. -/
def reSpace (c : Char) : Bool :=
  c == '\t' || c == '\n' || c == '\x0c' || c == '\r' || c == ' '

/-- Go regexp \w = [0-9A-Za-z_]. -/
def reWord (c : Char) : Bool :=
  ('0' ≤ c && c ≤ '9') || ('A' ≤ c && c ≤ 'Z') || ('a' ≤ c && c ≤ 'z') || c == '_'

/-- Go regexp \d = [0-9]. -/
def reDigit (c : Char) : Bool := '0' ≤ c && c ≤ '9'

/-- A literal string as a regex. -/
def reLit : GoStr → RE
  | [] => .eps
  | c :: rest => .seq (.cls (· == c)) (reLit rest)

/-- Sequence a list of regexes. -/
def reSeqs : List RE → RE
  | [] => .eps
  | [r] => r
  | r :: rest => .seq r (reSeqs rest)

/-- One-or-more. -/
def rePlus (r : RE) : RE := .seq r (.star r)

/-- Structural size of a regex, used to bound matching fuel. -/
def reSize : RE → Nat
  | .eps => 1
  | .cls _ => 1
  | .seq r1 r2 => reSize r1 + reSize r2 + 1
  | .star r => reSize r + 1

/-- All lengths n such that the regex matches some prefix of length n of the
list.  Fuel-indexed; each star unfolding consumes at least one character and
every other step descends structurally, so any fuel of at least
(reSize r + 1) * (l.length + 2) is exact. -/
def lensOf : Nat → RE → GoStr → List Nat
  | 0, _, _ => []
  | _ + 1, .eps, _ => [0]
  | _ + 1, .cls _, [] => []
  | _ + 1, .cls p, c :: _ => if p c then [1] else []
  | fuel + 1, .seq r1 r2, l =>
    (lensOf fuel r1 l).flatMap (fun n1 =>
      (lensOf fuel r2 (l.drop n1)).map (fun n2 => n1 + n2))
  | fuel + 1, .star r, l =>
    0 :: ((lensOf fuel r l).filter (fun n => decide (0 < n))).flatMap (fun n1 =>
      (lensOf fuel (.star r) (l.drop n1)).map (fun n2 => n1 + n2))

/-- Match lengths at the head of the list, with sufficient fuel. -/
def lensAt (r : RE) (l : GoStr) : List Nat :=
  lensOf ((reSize r + 1) * (l.length + 2)) r l

/-- regexp.FindString: the leftmost match; at the leftmost feasible start
the greedy quantifiers of the scanner's alternation-free patterns select
the longest match. `none` when there is no match. -/
def findString (r : RE) : GoStr → Option GoStr
  | [] => if (lensAt r []).isEmpty then none else some []
  | c :: rest =>
    let ns := lensAt r (c :: rest)
    if ns.isEmpty then findString r rest
    else some ((c :: rest).take (ns.foldr max 0))

/-- Go's FindString returns "" for "no match"; the scanner tests the result
against "". -/
def goFindString (r : RE) (l : GoStr) : GoStr :=
  (findString r l).getD []

/-
Scanner.patterns (scanner.go:32-58).  Each entry keeps the original pattern
string (the Issue's Pattern field) next to its compiled form.
-/

/-- `__asm__\s*\(` -/
def reAsm1 : RE := reSeqs [reLit (gs "__asm__"), .star (.cls reSpace), reLit (gs "(")]

/-- `asm\s*\(` -/
def reAsm2 : RE := reSeqs [reLit (gs "asm"), .star (.cls reSpace), reLit (gs "(")]

/-- `_asm\s*{` -/
def reAsm3 : RE := reSeqs [reLit (gs "_asm"), .star (.cls reSpace), reLit (gs "\x7b")]

/-- `#include\s*<.*NAME\.h.*>` for the five intrinsics headers. -/
def reInclude (header : String) : RE :=
  reSeqs [reLit (gs "#include"), .star (.cls reSpace), reLit (gs "<"),
    .star (.cls reAny), reLit (gs header), reLit (gs ".h"), .star (.cls reAny),
    reLit (gs ">")]

/-- `_mm_\w+` -/
def reMM : RE := reSeqs [reLit (gs "_mm_"), rePlus (.cls reWord)]

/-- `_mm\d+_\w+` -/
def reMMn : RE :=
  reSeqs [reLit (gs "_mm"), rePlus (.cls reDigit), reLit (gs "_"), rePlus (.cls reWord)]

/-- `#ifdef\s+NAME` for the four architecture macros. -/
def reIfdef (macroName : String) : RE :=
  reSeqs [reLit (gs "#ifdef"), rePlus (.cls reSpace), reLit (gs macroName)]

/-- The pattern table Scanner.patterns: category name to the ordered rule
slice, each rule as (source pattern string, compiled regex). -/
def patternsTable : List (GoStr × List (GoStr × RE)) :=
  [(gs "inline_assembly",
    [(gs "__asm__\\s*\\(", reAsm1),
     (gs "asm\\s*\\(", reAsm2),
     (gs "_asm\\s*\x7b", reAsm3)]),
   (gs "x86_intrinsics",
    [(gs "#include\\s*<.*mmintrin\\.h.*>", reInclude "mmintrin"),
     (gs "#include\\s*<.*xmmintrin\\.h.*>", reInclude "xmmintrin"),
     (gs "#include\\s*<.*emmintrin\\.h.*>", reInclude "emmintrin"),
     (gs "#include\\s*<.*pmmintrin\\.h.*>", reInclude "pmmintrin"),
     (gs "#include\\s*<.*immintrin\\.h.*>", reInclude "immintrin"),
     (gs "_mm_\\w+", reMM),
     (gs "_mm\\d+_\\w+", reMMn)]),
   (gs "architecture_checks",
    [(gs "#ifdef\\s+_M_X64", reIfdef "_M_X64"),
     (gs "#ifdef\\s+__x86_64__", reIfdef "__x86_64__"),
     (gs "#ifdef\\s+_M_IX86", reIfdef "_M_IX86"),
     (gs "#ifdef\\s+__i386__", reIfdef "__i386__")]),
   (gs "platform_specific",
    [(gs "GetSystemInfo", reLit (gs "GetSystemInfo")),
     (gs "IsWow64Process", reLit (gs "IsWow64Process")),
     (gs "SYSTEM_INFO", reLit (gs "SYSTEM_INFO"))])]

/-- The map keys of Scanner.patterns; any iteration order of the Go map is a
permutation of this list. -/
def categoriesCanonical : List GoStr :=
  [gs "inline_assembly", gs "x86_intrinsics", gs "architecture_checks",
   gs "platform_specific"]

/-- Rule slice of one category (empty for an unknown category, matching the
absent map key). -/
def patternsOf (category : GoStr) : List (GoStr × RE) :=
  ((patternsTable.find? (fun e => e.1 == category)).map (fun e => e.2)).getD []

/-
Data model (src/cli/internal/sdk/types.go).  Go ints that are only ever
non-negative counters are modeled as Nat; time.Time as Nat.
-/

/-- sdk.Issue. -/
structure Issue where
  File : GoStr
  Line : Nat
  Category : GoStr
  Pattern : GoStr
  MatchedText : GoStr
  Severity : GoStr
  Suggestion : GoStr
deriving DecidableEq, Repr

/-- sdk.Dependency.  The Go field `Type` (the spec's "ecosystem" tag) is
spelled DepType because `Type` is a Lean keyword; ARMCompatible is the
spec's "compatibility status". -/
structure Dependency where
  Name : GoStr
  Version : GoStr
  DepType : GoStr
  ARMCompatible : GoStr
deriving DecidableEq, Repr

/-- sdk.BuildSystem (the spec's BuildSystemDescriptor). -/
structure BuildSystem where
  File : GoStr
  System : GoStr
  NeedsReview : Bool
deriving DecidableEq, Repr

/-- sdk.ScanResults (the spec's ScanReport). -/
structure ScanResults where
  TotalFiles : Nat
  ScannedFiles : Nat
  Issues : List Issue
  Dependencies : List Dependency
  BuildSystems : List BuildSystem
  Recommendations : List GoStr
  ScanTime : Nat
deriving DecidableEq, Repr

/-
File-tree model.
-/

/-- One file's observable behavior: whether os.Open succeeds, the lines
bufio.Scanner delivers before stopping, and whether scanner.Err() is
non-nil afterwards (a read error partway through the file). -/
structure GoFile where
  openOk : Bool
  lines : List GoStr
  readErr : Bool
deriving DecidableEq, Repr

/-- A path relative to the scan root, as its list of components. -/
abbrev Path := List GoStr

/-- The scanned tree: whether the root exists, and the regular files under
it in filepath.Walk (deterministic lexical) order.  Paths are relative to
the root and non-empty; distinct entries of a real tree have distinct
paths. -/
structure FS where
  rootExists : Bool
  entries : List (Path × GoFile)
deriving DecidableEq, Repr

/-- filepath.Rel(projectPath, path): the relative path string. -/
def pathStr : Path → GoStr
  | [] => []
  | [c] => c
  | c :: rest => c ++ '/' :: pathStr rest

/-- The only error Scan itself can surface given a traversable tree. -/
inductive ScanErr where
  | pathNotFound
deriving DecidableEq, Repr

/-
getSourceFiles (scanner.go:131-161).
-/

/-- The directory skip-set (scanner.go:143-145). -/
def skipDirs : List GoStr :=
  [gs ".git", gs "__pycache__", gs "node_modules", gs ".venv", gs "venv",
   gs "build", gs "dist", gs ".tox", gs ".pytest_cache"]

/-- Scanner.extensions (scanner.go:59-76). -/
def extensions : List GoStr :=
  [gs ".c", gs ".cpp", gs ".cc", gs ".cxx", gs ".h", gs ".hpp", gs ".hxx",
   gs ".py", gs ".go", gs ".rs", gs ".java", gs ".cs", gs ".js", gs ".ts",
   gs ".jsx", gs ".tsx"]

/-- filepath.Ext applied to one path component: the suffix starting at the
final dot, or "" when there is no dot. -/
def extOf (name : GoStr) : GoStr :=
  let tail := (name.reverse.takeWhile (fun c => c != '.')).reverse
  if tail.length == name.length then [] else '.' :: tail

/-- strings.ToLower, on the ASCII range the extension table uses. -/
def toLowerGo (l : GoStr) : GoStr := l.map Char.toLower

/-- A file survives the Walk callback iff no directory on its path is in the
skip-set (such directories are pruned with filepath.SkipDir) and its
lower-cased extension is in the allow-list.  The root directory itself is
outside the model (paths are relative to it). -/
def sourceFileOk (p : Path) : Bool :=
  p.dropLast.all (fun comp => !(skipDirs.contains comp)) &&
    extensions.contains (toLowerGo (extOf (p.getLastD [])))

/-- The files getSourceFiles returns, in traversal order.  Note that the
walk always descends: getSourceFiles never consults the "recursive" entry
of the scanner's config map. -/
def sourceFilesList (fs : FS) : List (Path × GoFile) :=
  fs.entries.filter (fun e => sourceFileOk e.1)

/-
scanFile (scanner.go:164-206).
-/

/-- getSeverity (scanner.go:209-220): map lookup with default "low". -/
def severityMap : List (GoStr × GoStr) :=
  [(gs "inline_assembly", gs "high"),
   (gs "x86_intrinsics", gs "high"),
   (gs "architecture_checks", gs "medium"),
   (gs "platform_specific", gs "medium")]

def getSeverity (category : GoStr) : GoStr :=
  ((severityMap.find? (fun e => e.1 == category)).map (fun e => e.2)).getD (gs "low")

/-- getSuggestion (scanner.go:223-234): map lookup with default. -/
def suggestionMap : List (GoStr × GoStr) :=
  [(gs "inline_assembly", gs "Replace with portable C/C++ code or use ARM NEON intrinsics"),
   (gs "x86_intrinsics", gs "Replace with ARM NEON equivalents or portable alternatives"),
   (gs "architecture_checks", gs "Add ARM architecture checks or use runtime detection"),
   (gs "platform_specific", gs "Use cross-platform alternatives or add ARM-specific implementations")]

def getSuggestion (category : GoStr) : GoStr :=
  ((suggestionMap.find? (fun e => e.1 == category)).map (fun e => e.2)).getD
    (gs "Review for ARM compatibility")

/-- The issues one category contributes on one line (the inner pattern loop
of scanner.go:181-201): every pattern of the category, in slice order,
whose FindString result is non-empty appends one Issue. -/
def catIssues (relPath : GoStr) (lineNum : Nat) (line : GoStr)
    (category : GoStr) : List Issue :=
  (patternsOf category).filterMap (fun pr =>
    let m := goFindString pr.2 line
    if m.isEmpty then none
    else some
      { File := relPath, Line := lineNum, Category := category,
        Pattern := pr.1, MatchedText := m,
        Severity := getSeverity category,
        Suggestion := getSuggestion category })

/-- The category loop of scanFile for one line (scanner.go:180-202).
`catOrder` is the iteration order of the Scanner.patterns map. -/
def checkLine (relPath : GoStr) (lineNum : Nat) (line : GoStr)
    (catOrder : List GoStr) : List Issue :=
  catOrder.flatMap (catIssues relPath lineNum line)

/-- Line numbering from a starting index (lineNum++ with lineNum starting
at 0 numbers the lines 1, 2, ...). -/
def numbered : Nat → List GoStr → List (Nat × GoStr)
  | _, [] => []
  | n, l :: rest => (n, l) :: numbered (n + 1) rest

/-- scanFile: (issues, error flag).  An open failure returns (nil, err); a
read error partway returns the issues of the delivered lines together with
scanner.Err() ≠ nil. -/
def scanFile (relPath : GoStr) (f : GoFile) (catOrder : List GoStr) :
    List Issue × Bool :=
  if f.openOk then
    ((numbered 1 f.lines).flatMap (fun nl => checkLine relPath nl.1 nl.2 catOrder),
     f.readErr)
  else ([], true)

/-- A file contributes to ScannedFiles iff it opens and reads cleanly. -/
def fileOk (f : GoFile) : Bool := f.openOk && !f.readErr

/-- The per-file loop of Scan (scanner.go:97-108): a file whose scanFile
returns a non-nil error is skipped (its issues are discarded); otherwise
its issues are appended and ScannedFiles is incremented. -/
def scanLoop (catOrder : List GoStr) : List (Path × GoFile) → List Issue × Nat
  | [] => ([], 0)
  | e :: rest =>
    let r := scanFile (pathStr e.1) e.2 catOrder
    let tail := scanLoop catOrder rest
    if r.2 then tail else (r.1 ++ tail.1, tail.2 + 1)

/-
scanBuildSystems (scanner.go:237-285).
-/

/-- The buildPatterns map (scanner.go:240-248); `buildOrder` arguments range
over permutations of this canonical key order. -/
def buildPatterns : List (GoStr × GoStr) :=
  [(gs "CMakeLists.txt", gs "cmake"),
   (gs "Makefile", gs "make"),
   (gs "build.gradle", gs "gradle"),
   (gs "pom.xml", gs "maven"),
   (gs "package.json", gs "npm"),
   (gs "Cargo.toml", gs "cargo"),
   (gs "go.mod", gs "go_modules")]

/-- The descriptors one map entry contributes (loop body,
scanner.go:250-282): first filepath.Glob(root/NAME) — the root-level file
of that exact name, the names holding no glob metacharacters — then a full
filepath.Walk appending every file in the tree, root-level files included
again, whose base name equals NAME.  No directory skip-set applies here. -/
def bsForPattern (fs : FS) (ps : GoStr × GoStr) : List BuildSystem :=
  (fs.entries.filter (fun e => e.1 == [ps.1])).map (fun e =>
    { File := pathStr e.1, System := ps.2, NeedsReview := true })
  ++
  (fs.entries.filter (fun e => e.1.getLastD [] == ps.1)).map (fun e =>
    { File := pathStr e.1, System := ps.2, NeedsReview := true })

/-- scanBuildSystems: the buildPatterns loop in map-iteration order. -/
def scanBuildSystems (fs : FS) (buildOrder : List (GoStr × GoStr)) :
    List BuildSystem :=
  buildOrder.flatMap (bsForPattern fs)

/-
scanDependencies (scanner.go:288-443).  Each per-ecosystem scanner returns
(deps, error flag); scanDependencies keeps a result only when the flag is
clear.
-/

/-- os.Open / os.Stat on a root-level file name. -/
def lookupFile (fs : FS) (p : Path) : Option GoFile :=
  (fs.entries.find? (fun e => e.1 == p)).map (fun e => e.2)

/-- scanNpmDependencies (scanner.go:315-331): shallow detection by
existence of root/package.json. -/
def scanNpmDependencies (fs : FS) : List Dependency × Bool :=
  match lookupFile fs [gs "package.json"] with
  | none => ([], true)
  | some _ =>
    ([{ Name := gs "npm-dependencies", Version := gs "detected",
        DepType := gs "npm", ARMCompatible := gs "unknown" }], false)

/-- The body of scanPythonDependencies' line loop (scanner.go:345-376). -/
def scanPythonLine (raw : GoStr) : Option Dependency :=
  let line := trimSpace raw
  if line.isEmpty || ['#'].isPrefixOf line then none
  else
    let nv : GoStr × GoStr :=
      if contains2 '=' '=' line then
        let parts := split2 '=' '=' line
        (trimSpace (parts.headD []),
         if parts.length > 1 then trimSpace (parts.getD 1 []) else [])
      else if contains2 '>' '=' line then
        let parts := split2 '>' '=' line
        (trimSpace (parts.headD []),
         if parts.length > 1 then gs ">=" ++ trimSpace (parts.getD 1 []) else [])
      else (line, gs "*")
    some { Name := nv.1, Version := nv.2, DepType := gs "python",
           ARMCompatible := gs "unknown" }

/-- scanPythonDependencies (scanner.go:334-379): parse root/requirements.txt
line by line. -/
def scanPythonDependencies (fs : FS) : List Dependency × Bool :=
  match lookupFile fs [gs "requirements.txt"] with
  | none => ([], true)
  | some f =>
    if f.openOk then (f.lines.filterMap scanPythonLine, f.readErr)
    else ([], true)

/-- scanCargoDependencies (scanner.go:382-398): shallow detection by
existence of root/Cargo.toml. -/
def scanCargoDependencies (fs : FS) : List Dependency × Bool :=
  match lookupFile fs [gs "Cargo.toml"] with
  | none => ([], true)
  | some _ =>
    ([{ Name := gs "cargo-dependencies", Version := gs "detected",
        DepType := gs "cargo", ARMCompatible := gs "unknown" }], false)

/-- One iteration of scanGoDependencies' loop (scanner.go:413-440), over the
state (collected deps, inRequireBlock). -/
def goModStep (acc : List Dependency × Bool) (raw : GoStr) :
    List Dependency × Bool :=
  let line := trimSpace raw
  if (gs "require (").isPrefixOf line then (acc.1, true)
  else if acc.2 && line == gs ")" then (acc.1, false)
  else if acc.2 && !line.isEmpty && !((gs "//").isPrefixOf line) then
    let parts := fieldsGo line
    if parts.length ≥ 2 then
      (acc.1 ++ [{ Name := parts.headD [], Version := parts.getD 1 [],
                   DepType := gs "go", ARMCompatible := gs "unknown" }], acc.2)
    else (acc.1, acc.2)
  else (acc.1, acc.2)

/-- scanGoDependencies (scanner.go:401-443): parse the require block of
root/go.mod. -/
def scanGoDependencies (fs : FS) : List Dependency × Bool :=
  match lookupFile fs [gs "go.mod"] with
  | none => ([], true)
  | some f =>
    if f.openOk then ((f.lines.foldl goModStep ([], false)).1, f.readErr)
    else ([], true)

/-- scanDependencies (scanner.go:288-312): concatenate the four ecosystems
in fixed source order, dropping any whose scanner reported an error. -/
def scanDependencies (fs : FS) : List Dependency :=
  (let r := scanNpmDependencies fs; if r.2 then [] else r.1) ++
  (let r := scanPythonDependencies fs; if r.2 then [] else r.1) ++
  (let r := scanCargoDependencies fs; if r.2 then [] else r.1) ++
  (let r := scanGoDependencies fs; if r.2 then [] else r.1)

/-
generateRecommendations (scanner.go:446-487).  The message prefixes below
reproduce the literal (mojibake) characters stored in the source file.
-/

/-- fmt.Sprintf %d. -/
def natStr (n : Nat) : GoStr := (toString n).data

def recClean : GoStr := gs "âœ… No obvious x86-specific code detected"

def recFound (n : Nat) : GoStr :=
  gs "ðŸ” Found " ++ natStr n ++ gs " potential compatibility issues"

def recHigh (n : Nat) : GoStr :=
  gs "âš ï¸  " ++ natStr n ++
    gs " high-severity issues require immediate attention"

def recCMake : GoStr :=
  gs "ðŸ“‹ CMake detected - review CMakeLists.txt for architecture-specific settings"

def recMake : GoStr :=
  gs "ðŸ“‹ Makefile detected - review for architecture-specific compiler flags"

def recDeps (n : Nat) : GoStr :=
  gs "ðŸ“¦ " ++ natStr n ++ gs " dependencies found - verify ARM compatibility"

/-- generateRecommendations: the issue-count (or clean-scan) message, a
high-severity warning inside the non-zero branch, messages for the cmake
and make build-system types (membership in the buildSystemTypes set), and
a dependency-count message when any dependency exists. -/
def generateRecommendations (results : ScanResults) : List GoStr :=
  let issueCount := results.Issues.length
  let highSeverityCount := results.Issues.countP (fun i => i.Severity == gs "high")
  let hasType := fun (t : GoStr) => results.BuildSystems.any (fun bs => bs.System == t)
  let depCount := results.Dependencies.length
  (if issueCount == 0 then [recClean]
   else [recFound issueCount] ++
     (if highSeverityCount > 0 then [recHigh highSeverityCount] else [])) ++
  (if hasType (gs "cmake") then [recCMake] else []) ++
  (if hasType (gs "make") then [recMake] else []) ++
  (if depCount > 0 then [recDeps depCount] else [])

/-
Scan (scanner.go:83-128).
-/

/-- The body of Scan after a successful getSourceFiles.  `cfgRecursive` is
the config["recursive"] value supplied by runScan (scan.go:84-87); no
scanner code ever reads it, so it is an unused parameter here exactly as
in the source. -/
def scanCore (fs : FS) (cfgRecursive : Bool) (catOrder : List GoStr)
    (buildOrder : List (GoStr × GoStr)) (now : Nat) : ScanResults :=
  let files := sourceFilesList fs
  let scanned := scanLoop catOrder files
  let r0 : ScanResults :=
    { TotalFiles := files.length, ScannedFiles := scanned.2,
      Issues := scanned.1, Dependencies := scanDependencies fs,
      BuildSystems := scanBuildSystems fs buildOrder,
      Recommendations := [], ScanTime := now }
  { r0 with Recommendations := generateRecommendations r0 }

/-- Scan.  With a missing root, getSourceFiles' Walk fails and Scan returns
(nil, wrapped error): no report accompanies the failure, which the Except
captures.  With an existing root no other branch of Scan can fail
(scanBuildSystems and scanDependencies always return nil errors). -/
def Scan (fs : FS) (cfgRecursive : Bool) (catOrder : List GoStr)
    (buildOrder : List (GoStr × GoStr)) (now : Nat) :
    Except ScanErr ScanResults :=
  if fs.rootExists then .ok (scanCore fs cfgRecursive catOrder buildOrder now)
  else .error .pathNotFound

/-
Concrete trees and auxiliary values used by the theorems below.
-/

/-- A tree with one readable and one unreadable source file at the root. -/
def fsC7 : FS :=
  ⟨true, [([gs "ok.c"], ⟨true, [gs "int x;"], false⟩),
          ([gs "bad.c"], ⟨false, [], false⟩)]⟩

/-- The tree runScan is given with recursive=false: a single source file
inside a subdirectory, containing inline assembly on line 1. -/
def fsC3 : FS := ⟨true, [([gs "sub", gs "a.c"], ⟨true, [gs "asm ("], false⟩)]⟩

/-- A tree holding /CMakeLists.txt and /sub/CMakeLists.txt. -/
def fsC2 : FS :=
  ⟨true, [([gs "CMakeLists.txt"], ⟨true, [], false⟩),
          ([gs "sub", gs "CMakeLists.txt"], ⟨true, [], false⟩)]⟩

/-- A tree whose only entry is a root-level build.gradle. -/
def fsC5 : FS := ⟨true, [([gs "build.gradle"], ⟨true, [], false⟩)]⟩

/-- A readable file next to a file that delivers a matching line and then
fails with a read error. -/
def fsC9 : FS :=
  ⟨true, [([gs "ok.c"], ⟨true, [gs "asm ("], false⟩),
          ([gs "bad.c"], ⟨true, [gs "asm ("], true⟩)]⟩

/-- The tree restricted to its root-level files. -/
def rootOnly (fs : FS) : FS :=
  ⟨fs.rootExists, fs.entries.filter (fun e => e.1.length == 1)⟩

/-- A root-level requirements.txt (a subdirectory one is appended in the
C10 theorems). -/
def fsC10 : FS :=
  ⟨true, [([gs "requirements.txt"], ⟨true, [gs "numpy==1.21.0"], false⟩)]⟩

/-- A tree with one file whose single line fires two categories
(inline_assembly and platform_specific). -/
def fsC4 : FS :=
  ⟨true, [([gs "a.c"], ⟨true, [gs "asm ( GetSystemInfo"], false⟩)]⟩

/-- The reverse of categoriesCanonical: another legitimate iteration order
of the Scanner.patterns map. -/
def catOrderAlt : List GoStr :=
  [gs "platform_specific", gs "architecture_checks", gs "x86_intrinsics",
   gs "inline_assembly"]

/-
Basic lemmas about the per-file loop.
-/

theorem scanFile_snd (rp : GoStr) (f : GoFile) (o : List GoStr) :
    (scanFile rp f o).2 = !fileOk f := by
  unfold scanFile fileOk
  cases h : f.openOk <;> simp [h]

theorem scanLoop_snd (o : List GoStr) (files : List (Path × GoFile)) :
    (scanLoop o files).2 = files.countP (fun e => fileOk e.2) := by
  induction files with
  | nil => rfl
  | cons e rest ih =>
    simp only [scanLoop, scanFile_snd, List.countP_cons]
    cases h : fileOk e.2 <;> simp [h, ih]

theorem scanLoop_fst (o : List GoStr) (files : List (Path × GoFile)) :
    (scanLoop o files).1 =
      files.flatMap (fun e =>
        if fileOk e.2 then (scanFile (pathStr e.1) e.2 o).1 else []) := by
  induction files with
  | nil => rfl
  | cons e rest ih =>
    simp only [scanLoop, scanFile_snd, List.flatMap_cons]
    cases h : fileOk e.2 <;> simp [h, ih]

theorem scanCore_TotalFiles (fs : FS) (rc : Bool) (o : List GoStr)
    (b : List (GoStr × GoStr)) (now : Nat) :
    (scanCore fs rc o b now).TotalFiles = (sourceFilesList fs).length := rfl

theorem scanCore_ScannedFiles (fs : FS) (rc : Bool) (o : List GoStr)
    (b : List (GoStr × GoStr)) (now : Nat) :
    (scanCore fs rc o b now).ScannedFiles =
      (sourceFilesList fs).countP (fun e => fileOk e.2) := by
  simpa [scanCore] using scanLoop_snd o (sourceFilesList fs)

theorem scanCore_Issues (fs : FS) (rc : Bool) (o : List GoStr)
    (b : List (GoStr × GoStr)) (now : Nat) :
    (scanCore fs rc o b now).Issues =
      (sourceFilesList fs).flatMap (fun e =>
        if fileOk e.2 then (scanFile (pathStr e.1) e.2 o).1 else []) := by
  simpa [scanCore] using scanLoop_fst o (sourceFilesList fs)

/-- C8: if the root path does not exist, the scan fails with PathNotFound
and produces no report at all — Scan's result is the bare error, with no
partial ScanReport beside it. -/
theorem C8_pathNotFound (fs : FS) (rc : Bool) (o : List GoStr)
    (b : List (GoStr × GoStr)) (now : Nat) (h : fs.rootExists = false) :
    Scan fs rc o b now = .error .pathNotFound := by
  simp [Scan, h]

theorem C8_pathNotFound_witness :
    Scan ⟨false, []⟩ true categoriesCanonical buildPatterns 0 =
      .error .pathNotFound :=
  C8_pathNotFound _ _ _ _ _ rfl

/-- C7: every scan of an existing root returns a report with
0 ≤ ScannedFiles ≤ TotalFiles; TotalFiles counts every enumerated file
while ScannedFiles counts exactly those that opened and read without
error, so an unreadable file stays in TotalFiles, leaves ScannedFiles, and
does not abort the scan (a report is still returned). -/
theorem C7_counts (fs : FS) (rc : Bool) (o : List GoStr)
    (b : List (GoStr × GoStr)) (now : Nat) (h : fs.rootExists = true) :
    ∃ r, Scan fs rc o b now = .ok r ∧
      0 ≤ r.ScannedFiles ∧ r.ScannedFiles ≤ r.TotalFiles ∧
      r.TotalFiles = (sourceFilesList fs).length ∧
      r.ScannedFiles = (sourceFilesList fs).countP (fun e => fileOk e.2) := by
  refine ⟨scanCore fs rc o b now, by simp [Scan, h], Nat.zero_le _, ?_, rfl, scanCore_ScannedFiles ..⟩
  rw [scanCore_ScannedFiles, scanCore_TotalFiles]
  exact List.countP_le_length _

theorem C7_counts_witness :
    ∃ r, Scan fsC7 true categoriesCanonical buildPatterns 0 = .ok r ∧
      0 ≤ r.ScannedFiles ∧ r.ScannedFiles ≤ r.TotalFiles ∧
      r.TotalFiles = (sourceFilesList fsC7).length ∧
      r.ScannedFiles = (sourceFilesList fsC7).countP (fun e => fileOk e.2) :=
  C7_counts fsC7 true categoriesCanonical buildPatterns 0 rfl

/-- C3 (code bug): scan.go plumbs the --recursive flag into the scanner's
config map, but the scanner never reads it, so the flag's value cannot
affect any scan at all; with recursive=false the walk still descends, and
the subdirectory file sub/a.c is enumerated (TotalFiles = 1), scanned
(ScannedFiles = 1) and contributes an Issue, where the claim (and the
flag's own help text) say no subdirectory file may contribute. -/
theorem C3_recursive_ignored :
    (∀ (fs : FS) (o : List GoStr) (b : List (GoStr × GoStr)) (now : Nat),
      Scan fs true o b now = Scan fs false o b now) ∧
    (scanCore fsC3 false categoriesCanonical buildPatterns 0).TotalFiles = 1 ∧
    (scanCore fsC3 false categoriesCanonical buildPatterns 0).ScannedFiles = 1 ∧
    (scanCore fsC3 false categoriesCanonical buildPatterns 0).Issues.map
      Issue.File = [gs "sub/a.c"] := by
  refine ⟨fun fs o b now => rfl, rfl, rfl, ?_⟩
  decide

/-
Build-system detection (C2).
-/

theorem bsForPattern_mem (fs : FS) (ps : GoStr × GoStr) :
    ∀ b ∈ bsForPattern fs ps, b.System = ps.2 ∧ b.NeedsReview = true := by
  intro b hb
  simp only [bsForPattern, List.mem_append, List.mem_map] at hb
  rcases hb with ⟨e, _, rfl⟩ | ⟨e, _, rfl⟩ <;> exact ⟨rfl, rfl⟩

theorem bsForPattern_length (fs : FS) (ps : GoStr × GoStr) :
    (bsForPattern fs ps).length =
      fs.entries.countP (fun e => e.1 == [ps.1]) +
      fs.entries.countP (fun e => e.1.getLastD [] == ps.1) := by
  simp [bsForPattern, List.countP_eq_length_filter]

theorem bsForPattern_countP (fs : FS) (ps : GoStr × GoStr) (t : GoStr) :
    (bsForPattern fs ps).countP (fun b => b.System == t) =
      if ps.2 == t then (bsForPattern fs ps).length else 0 := by
  by_cases h : (ps.2 == t) = true
  · rw [if_pos h, List.countP_eq_length]
    intro b hb
    simpa [(bsForPattern_mem fs ps b hb).1] using h
  · rw [if_neg h, List.countP_eq_zero]
    intro b hb
    simp only [(bsForPattern_mem fs ps b hb).1]
    simpa using h

theorem countP_flatMap_system (fs : FS) (t : GoStr) (order : List (GoStr × GoStr)) :
    (order.flatMap (bsForPattern fs)).countP (fun b => b.System == t) =
      ((order.filter (fun q => q.2 == t)).flatMap (bsForPattern fs)).length := by
  induction order with
  | nil => rfl
  | cons q rest ih =>
    simp only [List.flatMap_cons, List.countP_append, List.filter_cons,
      bsForPattern_countP]
    by_cases h : (q.2 == t) = true <;> simp [h, ih]

/-- C2, actual behavior of scanBuildSystems: every emitted descriptor has
needs-review true, and for each table entry (NAME, system) the number of
descriptors carrying that system equals (root-level files named NAME) +
(files named NAME anywhere in the tree, root included).  A root-level
match is therefore emitted twice — once by the Glob step and once again by
the Walk step, although that Walk is commented "Also check subdirectories"
and makes the Glob step redundant — while each subdirectory match is
emitted once. -/
theorem C2_buildsystem_counts (fs : FS) (order : List (GoStr × GoStr))
    (horder : order.Perm buildPatterns) :
    (∀ b ∈ scanBuildSystems fs order, b.NeedsReview = true) ∧
    ∀ ps ∈ buildPatterns,
      (scanBuildSystems fs order).countP (fun b => b.System == ps.2) =
        fs.entries.countP (fun e => e.1 == [ps.1]) +
        fs.entries.countP (fun e => e.1.getLastD [] == ps.1) := by
  constructor
  · intro b hb
    simp only [scanBuildSystems, List.mem_flatMap] at hb
    obtain ⟨q, _, hbq⟩ := hb
    exact (bsForPattern_mem fs q b hbq).2
  · intro ps hps
    rw [scanBuildSystems, countP_flatMap_system,
      (List.Perm.flatMap_right (bsForPattern fs)
        (horder.filter (fun q => q.2 == ps.2))).length_eq]
    simp only [buildPatterns, List.mem_cons, List.not_mem_nil, or_false] at hps
    rcases hps with rfl | rfl | rfl | rfl | rfl | rfl | rfl
    · rw [show buildPatterns.filter (fun q => q.2 == gs "cmake") =
          [(gs "CMakeLists.txt", gs "cmake")] from by decide]
      simpa using bsForPattern_length fs (gs "CMakeLists.txt", gs "cmake")
    · rw [show buildPatterns.filter (fun q => q.2 == gs "make") =
          [(gs "Makefile", gs "make")] from by decide]
      simpa using bsForPattern_length fs (gs "Makefile", gs "make")
    · rw [show buildPatterns.filter (fun q => q.2 == gs "gradle") =
          [(gs "build.gradle", gs "gradle")] from by decide]
      simpa using bsForPattern_length fs (gs "build.gradle", gs "gradle")
    · rw [show buildPatterns.filter (fun q => q.2 == gs "maven") =
          [(gs "pom.xml", gs "maven")] from by decide]
      simpa using bsForPattern_length fs (gs "pom.xml", gs "maven")
    · rw [show buildPatterns.filter (fun q => q.2 == gs "npm") =
          [(gs "package.json", gs "npm")] from by decide]
      simpa using bsForPattern_length fs (gs "package.json", gs "npm")
    · rw [show buildPatterns.filter (fun q => q.2 == gs "cargo") =
          [(gs "Cargo.toml", gs "cargo")] from by decide]
      simpa using bsForPattern_length fs (gs "Cargo.toml", gs "cargo")
    · rw [show buildPatterns.filter (fun q => q.2 == gs "go_modules") =
          [(gs "go.mod", gs "go_modules")] from by decide]
      simpa using bsForPattern_length fs (gs "go.mod", gs "go_modules")

/-- C2, the code evaluated at the failing input: on that tree the detector
emits three descriptors, not the two the claim (and the code's own
structure — a root Glob step followed by a Walk commented "Also check
subdirectories") requires: the root-level CMakeLists.txt appears twice and
the nested one once. -/
theorem C2_root_descriptor_duplicated :
    (scanBuildSystems fsC2 buildPatterns).length = 3 ∧
    (scanBuildSystems fsC2 buildPatterns).countP
      (fun b => b.File == gs "CMakeLists.txt") = 2 := by
  constructor <;> decide

theorem C2_buildsystem_counts_witness :
    (∀ b ∈ scanBuildSystems fsC2 buildPatterns, b.NeedsReview = true) ∧
    ∀ ps ∈ buildPatterns,
      (scanBuildSystems fsC2 buildPatterns).countP (fun b => b.System == ps.2) =
        fsC2.entries.countP (fun e => e.1 == [ps.1]) +
        fsC2.entries.countP (fun e => e.1.getLastD [] == ps.1) :=
  C2_buildsystem_counts fsC2 buildPatterns (List.Perm.refl _)

/-
The pattern engine per line (C1).
-/

theorem catIssues_mem (rp : GoStr) (n : Nat) (line : GoStr) (cat : GoStr) :
    ∀ i ∈ catIssues rp n line cat, i.Category = cat := by
  intro i hi
  simp only [catIssues, List.mem_filterMap] at hi
  obtain ⟨pr, _, hpr⟩ := hi
  by_cases h : (goFindString pr.2 line).isEmpty = true
  · simp [h] at hpr
  · simp [h] at hpr
    simp [← hpr]

theorem catIssues_length (rp : GoStr) (n : Nat) (line : GoStr) (cat : GoStr) :
    (catIssues rp n line cat).length =
      (patternsOf cat).countP (fun pr => !(goFindString pr.2 line).isEmpty) := by
  rw [catIssues, List.length_filterMap_eq_countP]
  apply List.countP_congr
  intro pr _
  by_cases h : (goFindString pr.2 line).isEmpty = true <;> simp [h]

theorem catIssues_countP (rp : GoStr) (n : Nat) (line : GoStr) (cat c : GoStr) :
    (catIssues rp n line cat).countP (fun i => i.Category == c) =
      if cat == c then (catIssues rp n line cat).length else 0 := by
  by_cases h : (cat == c) = true
  · rw [if_pos h, List.countP_eq_length]
    intro i hi
    simpa [catIssues_mem rp n line cat i hi] using h
  · rw [if_neg h, List.countP_eq_zero]
    intro i hi
    simp only [catIssues_mem rp n line cat i hi]
    simpa using h

theorem countP_flatMap_category (rp : GoStr) (n : Nat) (line : GoStr) (c : GoStr)
    (order : List GoStr) :
    (order.flatMap (catIssues rp n line)).countP (fun i => i.Category == c) =
      ((order.filter (fun cat => cat == c)).flatMap (catIssues rp n line)).length := by
  induction order with
  | nil => rfl
  | cons cat rest ih =>
    simp only [List.flatMap_cons, List.countP_append, List.filter_cons,
      catIssues_countP]
    by_cases h : (cat == c) = true <;> simp [h, ih]

/-- C1 (amended): on each line the categories are evaluated independently,
and within a category EVERY expression whose FindString result is
non-empty yields one Issue — the loop has no first-match cut, so a
category reports one Issue per matching expression and may report several
on one line; distinct categories still fire independently. -/
theorem C1_per_category_count (rp : GoStr) (n : Nat) (line : GoStr)
    (order : List GoStr) (c : GoStr)
    (horder : order.Perm categoriesCanonical) (hc : c ∈ categoriesCanonical) :
    (checkLine rp n line order).countP (fun i => i.Category == c) =
      (patternsOf c).countP (fun pr => !(goFindString pr.2 line).isEmpty) := by
  rw [checkLine, countP_flatMap_category,
    (List.Perm.flatMap_right (catIssues rp n line)
      (horder.filter (fun cat => cat == c))).length_eq]
  simp only [categoriesCanonical, List.mem_cons, List.not_mem_nil, or_false] at hc
  rcases hc with rfl | rfl | rfl | rfl
  · rw [show categoriesCanonical.filter (fun cat => cat == gs "inline_assembly") =
        [gs "inline_assembly"] from by decide]
    simpa using catIssues_length rp n line (gs "inline_assembly")
  · rw [show categoriesCanonical.filter (fun cat => cat == gs "x86_intrinsics") =
        [gs "x86_intrinsics"] from by decide]
    simpa using catIssues_length rp n line (gs "x86_intrinsics")
  · rw [show categoriesCanonical.filter (fun cat => cat == gs "architecture_checks") =
        [gs "architecture_checks"] from by decide]
    simpa using catIssues_length rp n line (gs "architecture_checks")
  · rw [show categoriesCanonical.filter (fun cat => cat == gs "platform_specific") =
        [gs "platform_specific"] from by decide]
    simpa using catIssues_length rp n line (gs "platform_specific")

/-- C1 counterexample: the line `_asm { asm (` matches two expressions of
the inline_assembly category (`asm\s*\(` and `_asm\s*{`), and the engine
reports BOTH as Issues — two Issues for one category on one line, where
the claim allows at most one. -/
theorem C1_counterexample :
    (checkLine (gs "a.c") 1 (gs "_asm \x7b asm (") categoriesCanonical).countP
      (fun i => i.Category == gs "inline_assembly") = 2 := by
  decide

/-
Recommendations (C5).
-/

/-- C5 (amended): the recommendation list is exactly one issue-count (or
clean-scan) message, a high-severity message iff any issue has severity
"high", a review message for the cmake type iff present, a review message
for the make type iff present — the other five build-system types
(gradle, maven, npm, cargo, go_modules) never produce a message — and a
dependency-count message iff the dependency count is nonzero. -/
theorem C5_recommendations (r : ScanResults) :
    generateRecommendations r =
      (if r.Issues.length = 0 then [recClean] else [recFound r.Issues.length]) ++
      (if 0 < r.Issues.countP (fun i => i.Severity == gs "high")
        then [recHigh (r.Issues.countP (fun i => i.Severity == gs "high"))]
        else []) ++
      (if r.BuildSystems.any (fun bs => bs.System == gs "cmake")
        then [recCMake] else []) ++
      (if r.BuildSystems.any (fun bs => bs.System == gs "make")
        then [recMake] else []) ++
      (if 0 < r.Dependencies.length then [recDeps r.Dependencies.length]
        else []) := by
  unfold generateRecommendations
  by_cases h : r.Issues.length = 0
  · have hz : r.Issues.countP (fun i => i.Severity == gs "high") = 0 := by
      have hle := List.countP_le_length (p := fun i => i.Severity == gs "high")
        (l := r.Issues)
      omega
    simp [h, hz]
  · simp [h]

/-- C5 counterexample: a scan that detects a gradle build system produces
only the clean-scan message — no review message for the gradle type, where
the claim requires one message per distinct build-system type present. -/
theorem C5_counterexample :
    (scanCore fsC5 true categoriesCanonical buildPatterns 0).BuildSystems.any
      (fun bs => bs.System == gs "gradle") = true ∧
    (scanCore fsC5 true categoriesCanonical buildPatterns 0).Recommendations =
      [recClean] := by
  constructor <;> decide

theorem C1_per_category_count_witness :
    (checkLine (gs "w.c") 5 (gs "x = _mm_add_ps(a, b);") categoriesCanonical).countP
      (fun i => i.Category == gs "x86_intrinsics") =
      (patternsOf (gs "x86_intrinsics")).countP
        (fun pr => !(goFindString pr.2 (gs "x = _mm_add_ps(a, b);")).isEmpty) :=
  C1_per_category_count (gs "w.c") 5 (gs "x = _mm_add_ps(a, b);")
    categoriesCanonical (gs "x86_intrinsics") (List.Perm.refl _) (by decide)

/-
Separator lemmas for the requirements.txt parser (C6).
-/

theorem contains2_append_left (c1 c2 : Char) (a rest : GoStr) (ha : c1 ∉ a) :
    contains2 c1 c2 (a ++ rest) = contains2 c1 c2 rest := by
  induction a with
  | nil => rfl
  | cons x a' ih =>
    have hx : x ≠ c1 := fun h => ha (h ▸ List.mem_cons_self x a')
    have ha' : c1 ∉ a' := fun h => ha (List.mem_cons_of_mem x h)
    cases h : a' ++ rest with
    | nil =>
      obtain ⟨rfl, rfl⟩ := List.append_eq_nil.mp h
      rfl
    | cons y t =>
      show contains2 c1 c2 (x :: (a' ++ rest)) = contains2 c1 c2 rest
      rw [h]
      show ((x == c1 && y == c2) || contains2 c1 c2 (y :: t)) = contains2 c1 c2 rest
      rw [← h, ih ha']
      simp [hx]

theorem contains2_of_not_mem_left (c1 c2 : Char) (l : GoStr) (h : c1 ∉ l) :
    contains2 c1 c2 l = false := by
  have := contains2_append_left c1 c2 l [] h
  simpa using this

theorem contains2_of_not_mem_right (c1 c2 : Char) (l : GoStr) (h : c2 ∉ l) :
    contains2 c1 c2 l = false := by
  induction l with
  | nil => rfl
  | cons x rest ih =>
    cases rest with
    | nil => rfl
    | cons y t =>
      have hy : y ≠ c2 := fun hc => h (hc ▸ List.mem_cons_of_mem x (List.mem_cons_self y t))
      have h' : c2 ∉ y :: t := fun hc => h (List.mem_cons_of_mem x hc)
      show ((x == c1 && y == c2) || contains2 c1 c2 (y :: t)) = false
      rw [ih h']
      simp [hy]

theorem contains2_occurs (c1 c2 : Char) (a b : GoStr) :
    contains2 c1 c2 (a ++ c1 :: c2 :: b) = true := by
  induction a with
  | nil => simp [contains2]
  | cons x a' ih =>
    cases h : a' ++ c1 :: c2 :: b with
    | nil => simp at h
    | cons y t =>
      show contains2 c1 c2 (x :: (a' ++ c1 :: c2 :: b)) = true
      rw [h]
      show ((x == c1 && y == c2) || contains2 c1 c2 (y :: t)) = true
      rw [← h, ih]
      simp

theorem split2_of_not_mem (c1 c2 : Char) (l : GoStr) (h : c1 ∉ l) :
    split2 c1 c2 l = [l] := by
  induction l with
  | nil => rfl
  | cons x rest ih =>
    cases rest with
    | nil => rfl
    | cons y t =>
      have hx : x ≠ c1 := fun hc => h (hc ▸ List.mem_cons_self x (y :: t))
      have h' : c1 ∉ y :: t := fun hc => h (List.mem_cons_of_mem x hc)
      show split2 c1 c2 (x :: y :: t) = [x :: y :: t]
      rw [split2, if_neg (by simp [hx]), ih h']

theorem split2_boundary (c1 c2 : Char) (a b : GoStr) (ha : c1 ∉ a) (hb : c1 ∉ b) :
    split2 c1 c2 (a ++ c1 :: c2 :: b) = [a, b] := by
  induction a with
  | nil =>
    show split2 c1 c2 (c1 :: c2 :: b) = [[], b]
    rw [split2, if_pos (by simp), split2_of_not_mem c1 c2 b hb]
  | cons x a' ih =>
    have hx : x ≠ c1 := fun h => ha (h ▸ List.mem_cons_self x a')
    have ha' : c1 ∉ a' := fun h => ha (List.mem_cons_of_mem x h)
    cases h : a' ++ c1 :: c2 :: b with
    | nil => simp at h
    | cons y t =>
      show split2 c1 c2 (x :: (a' ++ c1 :: c2 :: b)) = [x :: a', b]
      rw [h, split2, if_neg (by simp [hx]), ← h, ih ha']

theorem contains2_eqeq_after_gt (b : GoStr) (hb : '=' ∉ b) :
    contains2 '=' '=' ('>' :: '=' :: b) = false := by
  cases b with
  | nil => rfl
  | cons y t =>
    have hy : y ≠ '=' := fun h => hb (h ▸ List.mem_cons_self y t)
    have hinner : contains2 '=' '=' ('=' :: y :: t) = false := by
      show (('=' == '=' && y == '=') || contains2 '=' '=' (y :: t)) = false
      rw [contains2_of_not_mem_right '=' '=' (y :: t) hb]
      simp [hy]
    show (('>' == '=' && '=' == '=') || contains2 '=' '=' ('=' :: y :: t)) = false
    rw [hinner]
    simp

theorem hashPrefix_false (l : GoStr) (h : l.head? ≠ some '#') :
    ['#'].isPrefixOf l = false := by
  cases l with
  | nil => rfl
  | cons x t =>
    have hx : x ≠ '#' := fun hc => h (by simp [hc])
    show (('#' == x) && List.isPrefixOf [] t) = false
    simp [Ne.symm hx]

/-- C6: the requirements.txt parser skips blank and comment lines; an
exact-pin line name==version yields Dependency(name, version); a
lower-bound line name>=version yields a version that keeps the ">="
prefix; a bare name yields version "*"; every produced Dependency carries
ecosystem tag "python" and compatibility "unknown"; and concretely,
`numpy==1.21.0` yields Dependency("numpy", "1.21.0", "python",
"unknown"). -/
theorem C6_python_manifest :
    (∀ raw : GoStr, trimSpace raw = [] → scanPythonLine raw = none) ∧
    (∀ raw rest : GoStr, trimSpace raw = '#' :: rest →
      scanPythonLine raw = none) ∧
    (∀ raw a b : GoStr, trimSpace raw = a ++ '=' :: '=' :: b →
      '=' ∉ a → '=' ∉ b → a.head? ≠ some '#' →
      scanPythonLine raw =
        some ⟨trimSpace a, trimSpace b, gs "python", gs "unknown"⟩) ∧
    (∀ raw a b : GoStr, trimSpace raw = a ++ '>' :: '=' :: b →
      '=' ∉ a → '>' ∉ a → '=' ∉ b → '>' ∉ b → a.head? ≠ some '#' →
      scanPythonLine raw =
        some ⟨trimSpace a, gs ">=" ++ trimSpace b, gs "python", gs "unknown"⟩) ∧
    (∀ raw line : GoStr, trimSpace raw = line → line ≠ [] →
      line.head? ≠ some '#' → '=' ∉ line →
      scanPythonLine raw = some ⟨line, gs "*", gs "python", gs "unknown"⟩) ∧
    scanPythonLine (gs "numpy==1.21.0") =
      some ⟨gs "numpy", gs "1.21.0", gs "python", gs "unknown"⟩ := by
  refine ⟨?_, ?_, ?_, ?_, ?_, by decide⟩
  · intro raw h
    simp [scanPythonLine, h]
  · intro raw rest h
    simp [scanPythonLine, h, List.isPrefixOf]
  · intro raw a b h ha hb hhead
    have hpre : ['#'].isPrefixOf (a ++ '=' :: '=' :: b) = false := by
      apply hashPrefix_false
      cases a with
      | nil => simp
      | cons x a' =>
        intro hc
        exact hhead (by simpa using hc)
    have hempty : (a ++ '=' :: '=' :: b).isEmpty = false := by
      cases a <;> simp
    simp [scanPythonLine, h, hempty, hpre, contains2_occurs '=' '=' a b,
      split2_boundary '=' '=' a b ha hb]
  · intro raw a b h ha hgta hb hgtb hhead
    have hpre : ['#'].isPrefixOf (a ++ '>' :: '=' :: b) = false := by
      apply hashPrefix_false
      cases a with
      | nil => simp
      | cons x a' =>
        intro hc
        exact hhead (by simpa using hc)
    have hempty : (a ++ '>' :: '=' :: b).isEmpty = false := by
      cases a <;> simp
    have hc1 : contains2 '=' '=' (a ++ '>' :: '=' :: b) = false := by
      rw [contains2_append_left '=' '=' a _ ha]
      exact contains2_eqeq_after_gt b hb
    simp [scanPythonLine, h, hempty, hpre, hc1, contains2_occurs '>' '=' a b,
      split2_boundary '>' '=' a b hgta hgtb]
  · intro raw line h hne hhead hmem
    have h1 : contains2 '=' '=' line = false :=
      contains2_of_not_mem_left '=' '=' line hmem
    have h2 : contains2 '>' '=' line = false :=
      contains2_of_not_mem_right '>' '=' line hmem
    have hempty : line.isEmpty = false := by
      cases line with
      | nil => exact absurd rfl hne
      | cons x t => rfl
    simp [scanPythonLine, h, hempty, hashPrefix_false line hhead, h1, h2]

theorem C6_python_manifest_witness :
    scanPythonLine (gs "numpy==1.21.0") =
      some ⟨trimSpace (gs "numpy"), trimSpace (gs "1.21.0"),
        gs "python", gs "unknown"⟩ :=
  C6_python_manifest.2.2.1 (gs "numpy==1.21.0") (gs "numpy") (gs "1.21.0")
    (by decide) (by decide) (by decide) (by decide)

/-
Per-file error atomicity (C9).
-/

theorem catIssues_File (rp : GoStr) (n : Nat) (line : GoStr) (cat : GoStr) :
    ∀ i ∈ catIssues rp n line cat, i.File = rp := by
  intro i hi
  simp only [catIssues, List.mem_filterMap] at hi
  obtain ⟨pr, _, hpr⟩ := hi
  by_cases h : (goFindString pr.2 line).isEmpty = true
  · simp [h] at hpr
  · simp [h] at hpr
    simp [← hpr]

theorem scanFile_File (rp : GoStr) (f : GoFile) (o : List GoStr) :
    ∀ i ∈ (scanFile rp f o).1, i.File = rp := by
  intro i hi
  unfold scanFile at hi
  by_cases h : f.openOk = true
  · simp only [h, if_true, List.mem_flatMap] at hi
    obtain ⟨nl, _, hnl⟩ := hi
    simp only [checkLine, List.mem_flatMap] at hnl
    obtain ⟨cat, _, hcat⟩ := hnl
    exact catIssues_File rp nl.1 nl.2 cat i hcat
  · simp [h] at hi

/-- C9: for a file whose open or read fails — including a read error
partway through, after Issues were already collected for its delivered
lines — the final report contains zero Issues from that file and the file
is not counted in ScannedFiles (strictly fewer scanned than enumerated
files), while the scan still returns a report. -/
theorem C9_file_error_atomic (fs : FS) (rc : Bool) (o : List GoStr)
    (b : List (GoStr × GoStr)) (now : Nat) (p : Path) (f : GoFile)
    (hroot : fs.rootExists = true)
    (hmem : (p, f) ∈ sourceFilesList fs)
    (herr : fileOk f = false)
    (huniq : ∀ e ∈ sourceFilesList fs, pathStr e.1 = pathStr p → e = (p, f)) :
    ∃ r, Scan fs rc o b now = .ok r ∧
      r.Issues.countP (fun i => i.File == pathStr p) = 0 ∧
      r.ScannedFiles < (sourceFilesList fs).length := by
  refine ⟨scanCore fs rc o b now, by simp [Scan, hroot], ?_, ?_⟩
  · rw [scanCore_Issues, List.countP_eq_zero]
    intro i hi
    simp only [List.mem_flatMap] at hi
    obtain ⟨e, he, hie⟩ := hi
    by_cases hok : fileOk e.2 = true
    · rw [if_pos hok] at hie
      have hfile : i.File = pathStr e.1 := scanFile_File _ _ _ i hie
      intro hcontra
      have hpp : pathStr e.1 = pathStr p := by
        rw [← hfile]
        exact eq_of_beq hcontra
      have he2 : e = (p, f) := huniq e he hpp
      rw [he2] at hok
      rw [herr] at hok
      exact Bool.false_ne_true hok
    · rw [if_neg hok] at hie
      simp at hie
  · rw [scanCore_ScannedFiles]
    apply Nat.lt_of_le_of_ne (List.countP_le_length _)
    intro heq
    have hall := List.countP_eq_length.mp heq (p, f) hmem
    rw [herr] at hall
    exact Bool.false_ne_true hall

theorem C9_file_error_atomic_witness :
    ∃ r, Scan fsC9 true categoriesCanonical buildPatterns 0 = .ok r ∧
      r.Issues.countP (fun i => i.File == pathStr [gs "bad.c"]) = 0 ∧
      r.ScannedFiles < (sourceFilesList fsC9).length :=
  C9_file_error_atomic fsC9 true categoriesCanonical buildPatterns 0
    [gs "bad.c"] ⟨true, [gs "asm ("], true⟩ rfl (by decide) rfl (by decide)

/-
Dependency extraction looks only at the root (C10).
-/

theorem find?_filter_root (entries : List (Path × GoFile)) (name : GoStr) :
    (entries.filter (fun e => e.1.length == 1)).find? (fun e => e.1 == [name]) =
      entries.find? (fun e => e.1 == [name]) := by
  induction entries with
  | nil => rfl
  | cons e rest ih =>
    by_cases h : (e.1 == [name]) = true
    · have he : e.1 = [name] := eq_of_beq h
      simp [he]
    · by_cases hlen : (e.1.length == 1) = true
      · simp [hlen, h, ih]
      · simp [hlen, h, ih]

theorem lookupFile_rootOnly (fs : FS) (name : GoStr) :
    lookupFile (rootOnly fs) [name] = lookupFile fs [name] := by
  unfold lookupFile rootOnly
  rw [find?_filter_root]

theorem find?_append_nonroot (entries : List (Path × GoFile)) (p : Path)
    (f : GoFile) (name : GoStr) (hp : 2 ≤ p.length) :
    ((entries ++ [(p, f)]).find? (fun e => e.1 == [name])) =
      entries.find? (fun e => e.1 == [name]) := by
  induction entries with
  | nil =>
    have hne : (p == [name]) = false := by
      apply Bool.eq_false_iff.mpr
      intro h
      have hpe := eq_of_beq h
      rw [hpe] at hp
      simp at hp
    simp [hne]
  | cons e rest ih =>
    by_cases h : (e.1 == [name]) = true
    · simp [h]
    · simp [h, ih]

theorem lookupFile_append_nonroot (fs : FS) (p : Path) (f : GoFile)
    (name : GoStr) (hp : 2 ≤ p.length) :
    lookupFile ⟨fs.rootExists, fs.entries ++ [(p, f)]⟩ [name] =
      lookupFile fs [name] := by
  unfold lookupFile
  rw [find?_append_nonroot fs.entries p f name hp]

/-- C10: dependency extraction reads only the four manifests directly at
the root: the result is unchanged when the tree is restricted to its
root-level files, and adding any file at depth ≥ 2 (a manifest of any
ecosystem inside a subdirectory) contributes zero Dependencies. -/
theorem C10_dependencies_root_only (fs : FS) :
    scanDependencies (rootOnly fs) = scanDependencies fs ∧
    ∀ (p : Path) (f : GoFile), 2 ≤ p.length →
      scanDependencies ⟨fs.rootExists, fs.entries ++ [(p, f)]⟩ =
        scanDependencies fs := by
  constructor
  · unfold scanDependencies scanNpmDependencies scanPythonDependencies
      scanCargoDependencies scanGoDependencies
    rw [lookupFile_rootOnly, lookupFile_rootOnly, lookupFile_rootOnly,
      lookupFile_rootOnly]
  · intro p f hp
    unfold scanDependencies scanNpmDependencies scanPythonDependencies
      scanCargoDependencies scanGoDependencies
    rw [lookupFile_append_nonroot fs p f _ hp, lookupFile_append_nonroot fs p f _ hp,
      lookupFile_append_nonroot fs p f _ hp, lookupFile_append_nonroot fs p f _ hp]

/-
Determinism up to map-iteration order (C4).
-/

theorem perm_any {l1 l2 : List BuildSystem} (h : l1.Perm l2)
    (p : BuildSystem → Bool) : l1.any p = l2.any p := by
  cases hb : l2.any p
  · rw [Bool.eq_false_iff]
    intro hanyt
    rw [List.any_eq_true] at hanyt
    obtain ⟨x, hx, hpx⟩ := hanyt
    have : l2.any p = true := List.any_eq_true.mpr ⟨x, h.mem_iff.mp hx, hpx⟩
    rw [hb] at this
    exact Bool.false_ne_true this
  · rw [List.any_eq_true] at hb ⊢
    obtain ⟨x, hx, hpx⟩ := hb
    exact ⟨x, h.mem_iff.mpr hx, hpx⟩

theorem generateRecommendations_congr (r1 r2 : ScanResults)
    (hI : r1.Issues.Perm r2.Issues)
    (hB : r1.BuildSystems.Perm r2.BuildSystems)
    (hD : r1.Dependencies = r2.Dependencies) :
    generateRecommendations r1 = generateRecommendations r2 := by
  simp only [generateRecommendations]
  rw [hI.length_eq, hI.countP_eq (fun i => i.Severity == gs "high"), hD]
  simp only [perm_any hB (fun bs => bs.System == gs "cmake"),
    perm_any hB (fun bs => bs.System == gs "make")]

theorem scanFile_perm (rp : GoStr) (f : GoFile) (o1 o2 : List GoStr)
    (h : o1.Perm o2) : (scanFile rp f o1).1.Perm (scanFile rp f o2).1 := by
  unfold scanFile
  by_cases hopen : f.openOk = true
  · simp only [hopen, if_true]
    apply List.Perm.flatMap_left
    intro nl _
    rw [checkLine, checkLine]
    exact List.Perm.flatMap_right _ h
  · simp [hopen]

theorem scanCore_Recommendations (fs : FS) (rc : Bool) (o : List GoStr)
    (b : List (GoStr × GoStr)) (now : Nat) :
    (scanCore fs rc o b now).Recommendations =
      generateRecommendations (scanCore fs rc o b now) := rfl

/-- C4 (amended): two scans of the same unchanged tree agree on
TotalFiles, ScannedFiles, the Dependency list, the Recommendation list and
their respective timestamps, and their Issue and BuildSystem lists are
equal as multisets (permutations of one another) — but not necessarily as
sequences: within one line, Issues of different categories appear in the
Go map's iteration order for that run (rules within one category keep
slice order), and BuildSystem entries likewise follow the buildPatterns
map's per-run iteration order. -/
theorem C4_scan_deterministic_up_to_order (fs : FS) (rc1 rc2 : Bool)
    (o1 o2 : List GoStr) (b1 b2 : List (GoStr × GoStr)) (now1 now2 : Nat)
    (h1 : o1.Perm categoriesCanonical) (h2 : o2.Perm categoriesCanonical)
    (hb1 : b1.Perm buildPatterns) (hb2 : b2.Perm buildPatterns) :
    (scanCore fs rc1 o1 b1 now1).TotalFiles =
      (scanCore fs rc2 o2 b2 now2).TotalFiles ∧
    (scanCore fs rc1 o1 b1 now1).ScannedFiles =
      (scanCore fs rc2 o2 b2 now2).ScannedFiles ∧
    (scanCore fs rc1 o1 b1 now1).Issues.Perm
      (scanCore fs rc2 o2 b2 now2).Issues ∧
    (scanCore fs rc1 o1 b1 now1).Dependencies =
      (scanCore fs rc2 o2 b2 now2).Dependencies ∧
    (scanCore fs rc1 o1 b1 now1).BuildSystems.Perm
      (scanCore fs rc2 o2 b2 now2).BuildSystems ∧
    (scanCore fs rc1 o1 b1 now1).Recommendations =
      (scanCore fs rc2 o2 b2 now2).Recommendations ∧
    (scanCore fs rc1 o1 b1 now1).ScanTime = now1 ∧
    (scanCore fs rc2 o2 b2 now2).ScanTime = now2 := by
  have ho : o1.Perm o2 := h1.trans h2.symm
  have hb : b1.Perm b2 := hb1.trans hb2.symm
  have hIssues : (scanCore fs rc1 o1 b1 now1).Issues.Perm
      (scanCore fs rc2 o2 b2 now2).Issues := by
    rw [scanCore_Issues, scanCore_Issues]
    apply List.Perm.flatMap_left
    intro e _
    by_cases hok : fileOk e.2 = true
    · rw [if_pos hok, if_pos hok]
      exact scanFile_perm (pathStr e.1) e.2 o1 o2 ho
    · rw [if_neg hok, if_neg hok]
  have hBS : (scanCore fs rc1 o1 b1 now1).BuildSystems.Perm
      (scanCore fs rc2 o2 b2 now2).BuildSystems :=
    List.Perm.flatMap_right (bsForPattern fs) hb
  refine ⟨?_, ?_, hIssues, rfl, hBS, ?_, rfl, rfl⟩
  · rw [scanCore_TotalFiles, scanCore_TotalFiles]
  · rw [scanCore_ScannedFiles, scanCore_ScannedFiles]
  · rw [scanCore_Recommendations, scanCore_Recommendations]
    exact generateRecommendations_congr _ _ hIssues hBS rfl

/-- C4 counterexample: scanning the identical unchanged tree twice, with
two legitimate map-iteration orders and even the same timestamp, yields
different Issue sequences (the two issues of the shared line swap), so
the reports are not identical up to timestamp. -/
theorem C4_counterexample :
    catOrderAlt.Perm categoriesCanonical ∧
    (scanCore fsC4 true categoriesCanonical buildPatterns 0).ScanTime =
      (scanCore fsC4 true catOrderAlt buildPatterns 0).ScanTime ∧
    (scanCore fsC4 true categoriesCanonical buildPatterns 0).Issues ≠
      (scanCore fsC4 true catOrderAlt buildPatterns 0).Issues := by
  refine ⟨by decide, rfl, ?_⟩
  decide

theorem C4_scan_deterministic_up_to_order_witness :
    (scanCore fsC4 true categoriesCanonical buildPatterns 3).TotalFiles =
      (scanCore fsC4 false catOrderAlt buildPatterns 7).TotalFiles ∧
    (scanCore fsC4 true categoriesCanonical buildPatterns 3).ScannedFiles =
      (scanCore fsC4 false catOrderAlt buildPatterns 7).ScannedFiles ∧
    (scanCore fsC4 true categoriesCanonical buildPatterns 3).Issues.Perm
      (scanCore fsC4 false catOrderAlt buildPatterns 7).Issues ∧
    (scanCore fsC4 true categoriesCanonical buildPatterns 3).Dependencies =
      (scanCore fsC4 false catOrderAlt buildPatterns 7).Dependencies ∧
    (scanCore fsC4 true categoriesCanonical buildPatterns 3).BuildSystems.Perm
      (scanCore fsC4 false catOrderAlt buildPatterns 7).BuildSystems ∧
    (scanCore fsC4 true categoriesCanonical buildPatterns 3).Recommendations =
      (scanCore fsC4 false catOrderAlt buildPatterns 7).Recommendations ∧
    (scanCore fsC4 true categoriesCanonical buildPatterns 3).ScanTime = 3 ∧
    (scanCore fsC4 false catOrderAlt buildPatterns 7).ScanTime = 7 :=
  C4_scan_deterministic_up_to_order fsC4 true false categoriesCanonical
    catOrderAlt buildPatterns buildPatterns 3 7 (List.Perm.refl _) (by decide)
    (List.Perm.refl _) (List.Perm.refl _)

theorem C10_dependencies_root_only_witness :
    scanDependencies
      ⟨fsC10.rootExists,
        fsC10.entries ++ [([gs "sub", gs "requirements.txt"],
          ⟨true, [gs "torch==2.0.0"], false⟩)]⟩ =
      scanDependencies fsC10 :=
  (C10_dependencies_root_only fsC10).2 [gs "sub", gs "requirements.txt"]
    ⟨true, [gs "torch==2.0.0"], false⟩ (by decide)

end M2arm
